import Mathlib

/-!
Shallow embedding of the classification core of `media-sorter.py`
(smart-media-sorter).  The embedding models:

* `FileClassifier.classify_by_filename`, `classify_by_dimensions`,
  `classify_video`, `classify_file`  (pattern / threshold pipeline),
* `ImageAnalyzer.get_dimensions`     (PNG / JPEG / GIF header parser),
* `MediaSorter._classify_with_duplicate_check` and the per-run state,
* `MediaSorter._move_file`           (conflict-safe destination naming),
* `CacheManager.load` plus the cache branch of `main`,
* `MediaSorter._process_file_list` / `process_files` (dry-run gating).

Python strings are modelled as Lean `String`, byte streams as `List Nat`
(each entry one byte), regular-expression search (`re.search`) as abstract
boolean oracles (one for searches carrying `re.IGNORECASE`, one for plain
searches), `mimetypes.guess_type` / `magic.from_file` as `Option String`
oracles, and file sizes in megabytes as `Option ℚ` (with `none` standing
for an `OSError` caught by the code).  Exceptions that the Python code
catches are modelled by the value the handler produces.
-/

/-- Classification categories produced by the classifier
(`duplicates` is only a statistics key, never a stored category). -/
inductive Category where
  | personal
  | app_icons
  | game_assets
  | thumbnails
  | system_cache
  | review
deriving DecidableEq, Repr

/-- Dictionary key under which a category is counted in `self.stats`
(the Python code uses these exact strings). -/
def Category.key : Category → String
  | .personal => "personal"
  | .app_icons => "app_icons"
  | .game_assets => "game_assets"
  | .thumbnails => "thumbnails"
  | .system_cache => "system_cache"
  | .review => "review"

/-- Rule table: the four pattern groups of `config['patterns']`,
each an ordered list of pattern strings. -/
structure Patterns where
  app_icons : List String
  game_assets : List String
  cache : List String
  personal : List String

/-- Threshold table `config['thresholds']`.  The three dimension thresholds
are integers; the video-size threshold is compared against a fractional
megabyte count, so it is kept rational. -/
structure Thresholds where
  icon_max_dimension : Nat
  thumbnail_max_dimension : Nat
  min_photo_dimension : Nat
  min_video_size_mb : ℚ

/-- Threshold values of `DEFAULT_CONFIG['thresholds']`. -/
def defaultThresholds : Thresholds :=
  { icon_max_dimension := 256
    thumbnail_max_dimension := 200
    min_photo_dimension := 800
    min_video_size_mb := 5 }

/-- Per-file facts the classifier consults through the runtime:
the basename, the result of `mimetypes.guess_type`, the result of the
optional `magic.from_file` content sniff (`none` when it raised), the
dimensions reported by `ImageAnalyzer.get_dimensions` (`none` for the
(None, None) outcome), and the file size in megabytes (`none` when
`os.path.getsize` raised). -/
structure FileInfo where
  filename : String
  mimeGuess : Option String
  magicMime : Option String
  dims : Option (Nat × Nat)
  sizeMB : Option ℚ

/-- Model of `FileClassifier.classify_by_filename`.  `searchCI p s` stands
for `re.search(p, s, re.IGNORECASE)` being truthy and `searchCS p s` for
`re.search(p, s)` being truthy.  The code lowercases the filename once and
checks the groups in the order cache, personal, app_icons, game_assets,
the personal group against the original (non-lowercased) filename. -/
def classify_by_filename (searchCI searchCS : String → String → Bool)
    (pats : Patterns) (filename : String) : Option Category :=
  let filename_lower := filename.toLower
  if pats.cache.any (fun p => searchCI p filename_lower) then
    some Category.system_cache
  else if pats.personal.any (fun p => searchCI p filename) then
    some Category.personal
  else if pats.app_icons.any (fun p => searchCS p filename_lower) then
    some Category.app_icons
  else if pats.game_assets.any (fun p => searchCS p filename_lower) then
    some Category.game_assets
  else
    none

/-- Model of `FileClassifier.classify_by_dimensions`, taking the
`ImageAnalyzer.get_dimensions` outcome as input ((None, None) is `none`).
Every exception inside the Python body is caught and yields review. -/
def classify_by_dimensions (th : Thresholds) (dims : Option (Nat × Nat)) :
    Category :=
  match dims with
  | none => Category.review
  | some (width, height) =>
    let max_dim := max width height
    let min_dim := min width height
    if max_dim ≤ th.icon_max_dimension then Category.app_icons
    else if max_dim ≤ th.thumbnail_max_dimension then Category.thumbnails
    else if th.min_photo_dimension ≤ min_dim then Category.personal
    else Category.review

/-- Model of `FileClassifier.classify_video`: first the redundant loop over
the personal patterns (same `re.IGNORECASE` search on the original
filename as in `classify_by_filename`), then the size test, where a failed
`os.path.getsize` (`sizeMB = none`) falls through to review. -/
def classify_video (searchCI : String → String → Bool)
    (personalPats : List String) (th : Thresholds)
    (filename : String) (sizeMB : Option ℚ) : Category :=
  if personalPats.any (fun p => searchCI p filename) then
    Category.personal
  else
    match sizeMB with
    | some size_mb =>
      if th.min_video_size_mb < size_mb then Category.personal
      else Category.review
    | none => Category.review

/-- Model of Python `str.startswith`: the prefix test on the character
sequences (written so that it evaluates by kernel reduction). -/
def pyStartsWith (s pre : String) : Bool :=
  pre.data.isPrefixOf s.data

/-- MIME type `classify_file` ends up with: `mimetypes.guess_type` first,
then, only when that gave nothing and `HAS_MAGIC`, the content sniff. -/
def effectiveMime (hasMagic : Bool) (info : FileInfo) : Option String :=
  match info.mimeGuess with
  | some m => some m
  | none => if hasMagic then info.magicMime else none

/-- Model of `FileClassifier.classify_file`: filename patterns, then MIME
detection, then the image / video / other dispatch. -/
def classify_file (searchCI searchCS : String → String → Bool)
    (hasMagic : Bool) (pats : Patterns) (th : Thresholds)
    (info : FileInfo) : Category :=
  match classify_by_filename searchCI searchCS pats info.filename with
  | some category => category
  | none =>
    match effectiveMime hasMagic info with
    | none => Category.review
    | some mime =>
      if pyStartsWith mime "image/" then
        classify_by_dimensions th info.dims
      else if pyStartsWith mime "video/" then
        classify_video searchCI pats.personal th info.filename info.sizeMB
      else
        Category.review

/-- Bytes a `seek(off)` followed by `read(len)` returns on a stream whose
full contents are `file` (reading past the end yields fewer bytes). -/
def readBytes (file : List Nat) (off len : Nat) : List Nat :=
  (file.drop off).take len

/-- Model of `int.from_bytes(bs, 'big')` (0 on the empty byte string). -/
def fromBytesBE (bs : List Nat) : Nat :=
  bs.foldl (fun acc b => acc * 256 + b) 0

/-- Model of `int.from_bytes(bs, 'little')`. -/
def fromBytesLE (bs : List Nat) : Nat :=
  fromBytesBE bs.reverse

/-- Outcome of `ImageAnalyzer.get_dimensions`: a returned pair, the
(None, None) result, or non-termination of the JPEG marker loop
(reported when the fuel of the loop model runs out). -/
inductive DimResult where
  | dims (width height : Nat)
  | nodims
  | hang
deriving DecidableEq, Repr

/-- Start-of-frame marker types recognised by the JPEG branch. -/
def sofMarkers : List Nat := [0xC0, 0xC1, 0xC2]

/-- Model of the JPEG `while True` marker loop of
`ImageAnalyzer.get_dimensions`, with the read position made explicit.
One loop iteration: read two marker bytes (an empty read, or a first byte
other than 0xFF, breaks out to the final (None, None); a one-byte read
with first byte 0xFF raises IndexError on `marker[1]`, caught by the outer
handler, again (None, None)).  On a start-of-frame marker the code skips
3 bytes and reads height then width, big-endian, 2 bytes each; partial
reads near the end of file decode the remaining bytes.  Otherwise it reads
a two-byte segment length and seeks `size - 2` forward from the current
position; a seek to a negative offset raises ValueError, caught by the
outer handler ((None, None)). -/
def jpegScan (file : List Nat) : Nat → Nat → DimResult
  | 0, _ => DimResult.hang
  | fuel + 1, pos =>
    match readBytes file pos 2 with
    | [] => DimResult.nodims
    | [_] => DimResult.nodims
    | b0 :: b1 :: _ =>
      if b0 ≠ 0xFF then DimResult.nodims
      else if b1 ∈ sofMarkers then
        DimResult.dims
          (fromBytesBE (readBytes file (pos + 7) 2))
          (fromBytesBE (readBytes file (pos + 5) 2))
      else
        let sizeBytes := readBytes file (pos + 2) 2
        let size := fromBytesBE sizeBytes
        let newPos : Int :=
          (pos : Int) + 2 + sizeBytes.length + ((size : Int) - 2)
        if newPos < 0 then DimResult.nodims
        else jpegScan file fuel newPos.toNat

/-- PNG signature bytes. -/
def pngSig : List Nat := [0x89, 0x50, 0x4E, 0x47, 0x0D, 0x0A, 0x1A, 0x0A]

/-- JPEG signature bytes (start-of-image marker). -/
def jpegSig : List Nat := [0xFF, 0xD8]

/-- GIF signature bytes (the ASCII letters G, I, F). -/
def gifSig : List Nat := [0x47, 0x49, 0x46]

/-- Model of `ImageAnalyzer.get_dimensions` on the byte stream `file`.
The code reads a 24-byte header, dispatches on its leading signature, and
for PNG re-reads 4-byte big-endian words at offsets 16 and 20, for GIF
decodes 2-byte little-endian words at header offsets 6 and 8, and for JPEG
runs the marker loop from offset 0.  The fuel given to the loop exceeds
any position the loop can reach while still making progress, so `hang`
reports a genuinely stalled loop. -/
def get_dimensions (file : List Nat) : DimResult :=
  let header := file.take 24
  if pngSig.isPrefixOf header then
    DimResult.dims
      (fromBytesBE (readBytes file 16 4))
      (fromBytesBE (readBytes file 20 4))
  else if jpegSig.isPrefixOf header then
    jpegScan file (file.length + 8) 0
  else if gifSig.isPrefixOf header then
    DimResult.dims
      (fromBytesLE (readBytes header 6 2))
      (fromBytesLE (readBytes header 8 2))
  else
    DimResult.nodims

/-- Scanning the JPEG marker loop from position `p` reaches a
start-of-frame marker at position `q`: either `p` already holds one, or
`p` holds a full marker-plus-length segment (declared length at least 2,
as in every well-formed JPEG segment) whose declared length leads on to
`q`. -/
inductive ScanReaches (file : List Nat) : Nat → Nat → Prop where
  | found (p b : Nat) (h1 : readBytes file p 2 = [0xFF, b])
      (h2 : b ∈ sofMarkers) : ScanReaches file p p
  | step (p q b : Nat) (h1 : readBytes file p 2 = [0xFF, b])
      (h2 : b ∉ sofMarkers)
      (h3 : (readBytes file (p + 2) 2).length = 2)
      (h4 : 2 ≤ fromBytesBE (readBytes file (p + 2) 2))
      (h5 : ScanReaches file (p + 2 + fromBytesBE (readBytes file (p + 2) 2)) q) :
      ScanReaches file p q

/-- Reading two bytes in full means both positions lie inside the file. -/
theorem pos_bound_of_readBytes_two {file : List Nat} {p b0 b1 : Nat}
    (h : readBytes file p 2 = [b0, b1]) : p + 2 ≤ file.length := by
  have hl := congrArg List.length h
  simp only [readBytes, List.length_take, List.length_drop,
    List.length_cons, List.length_nil] at hl
  omega

/-- The marker loop, given enough fuel, follows a `ScanReaches` chain and
returns exactly the width and height bytes encoded at the start-of-frame
position it reaches. -/
theorem jpegScan_of_reaches {file : List Nat} {p q : Nat}
    (h : ScanReaches file p q) :
    ∀ fuel : Nat, file.length + 1 ≤ fuel + p →
      jpegScan file fuel p =
        DimResult.dims (fromBytesBE (readBytes file (q + 7) 2))
          (fromBytesBE (readBytes file (q + 5) 2)) := by
  induction h with
  | found p b h1 h2 =>
    intro fuel hfuel
    have hp := pos_bound_of_readBytes_two h1
    match fuel with
    | 0 => omega
    | fuel + 1 =>
      rw [jpegScan, h1]
      simp [h2]
  | step p q b h1 h2 h3 h4 h5 ih =>
    intro fuel hfuel
    have hp := pos_bound_of_readBytes_two h1
    match fuel with
    | 0 => omega
    | fuel + 1 =>
      rw [jpegScan, h1]
      simp only [ne_eq, reduceCtorEq, not_false_eq_true, if_true, h2,
        if_false, ite_false, ite_true]
      rw [if_neg (by simp [h2]), h3]
      simp only [Nat.cast_ofNat]
      have harith : ¬ ((p : Int) + 2 + 2 +
          ((fromBytesBE (readBytes file (p + 2) 2) : Int) - 2) < 0) := by
        omega
      rw [if_neg harith]
      have htonat : ((p : Int) + 2 + 2 +
          ((fromBytesBE (readBytes file (p + 2) 2) : Int) - 2)).toNat =
          p + 2 + fromBytesBE (readBytes file (p + 2) 2) := by
        omega
      rw [htonat]
      exact ih fuel (by omega)

/-- Mutable per-run state of `MediaSorter` as far as classification is
concerned: `self.stats` (a defaultdict-int keyed by category strings plus
the key "duplicates"), `self.duplicates` (a defaultdict-list from content
hash to the paths registered under it) and `self.classifications`. -/
structure SorterState where
  stats : String → Nat
  dups : String → List String
  classifications : String → Option Category

/-- State of a fresh `MediaSorter` (empty defaultdicts). -/
def initState : SorterState :=
  { stats := fun _ => 0, dups := fun _ => [], classifications := fun _ => none }

/-- Increment of a defaultdict-int entry (`self.stats[k] += 1`). -/
def bumpStat (stats : String → Nat) (k : String) : String → Nat :=
  fun x => if x = k then stats x + 1 else stats x

/-- Model of `MediaSorter._classify_with_duplicate_check`.  `classify`
stands for `self.classifier.classify_file` and `hashOf` for
`self.get_file_hash` (whose `None` on error propagates here).  A file is
treated as a duplicate exactly when its hash is non-None, already a key of
`self.duplicates`, and registered with a nonempty path list; then the
"duplicates" statistic is bumped and the category forced to system_cache.
Otherwise the file is classified normally and, when it has a hash, the
hash is registered.  Either way the resulting category is counted and
recorded in `self.classifications`. -/
def classify_with_duplicate_check (classify : String → Category)
    (hashOf : String → Option String) (st : SorterState) (filepath : String) :
    Category × SorterState :=
  let file_hash := hashOf filepath
  let dupFlag :=
    match file_hash with
    | some h => !(st.dups h).isEmpty
    | none => false
  let res :=
    if dupFlag then
      (Category.system_cache,
        { st with stats := bumpStat st.stats "duplicates" })
    else
      let st1 :=
        match file_hash with
        | some h =>
          { st with
            dups := fun k => if k = h then st.dups k ++ [filepath] else st.dups k }
        | none => st
      (classify filepath, st1)
  (res.1,
    { res.2 with
      stats := bumpStat res.2.stats res.1.key
      classifications :=
        fun k => if k = filepath then some res.1 else res.2.classifications k })

/-- State after `_classify_with_duplicate_check` handled one file. -/
def stepState (classify : String → Category) (hashOf : String → Option String)
    (st : SorterState) (filepath : String) : SorterState :=
  (classify_with_duplicate_check classify hashOf st filepath).2

/-- State after a run classified the given files in order, starting from a
fresh `MediaSorter`. -/
def runState (classify : String → Category) (hashOf : String → Option String)
    (files : List String) : SorterState :=
  files.foldl (stepState classify hashOf) initState

/-- Contents of a parsed classification cache file: the fields
`CacheManager.load` reads via `.get` (`none` models an absent key). -/
structure CacheData where
  source_dir : Option String
  output_dir : Option String
  classifications : List (String × String)
  stats : List (String × Nat)

namespace CacheManager

/-- Model of `CacheManager.load`.  The outer `Option` of `cacheContents`
is the file: `none` when it does not exist or when reading / JSON parsing
raised (both give a `None` return).  A parsed cache is rejected in full
when either recorded directory differs from the expected one. -/
def load (cacheContents : Option CacheData) (source_dir output_dir : String) :
    Option (List (String × String) × List (String × Nat)) :=
  match cacheContents with
  | none => none
  | some cache_data =>
    if cache_data.source_dir ≠ some source_dir ∨
        cache_data.output_dir ≠ some output_dir then
      none
    else
      some (cache_data.classifications, cache_data.stats)

end CacheManager

/-- Outcome of the cache-loading phase of `main`: either the process
returns with an exit code, or processing goes ahead with the given
`use_cache` flag and loaded classifications. -/
inductive MainOutcome where
  | exitCode (code : Nat)
  | proceed (use_cache : Bool)
      (loaded : Option (List (String × String) × List (String × Nat)))
deriving DecidableEq

/-- Model of the `--use-cache` handling in `main`: `use_cache_arg` is
`none` when the flag is absent, otherwise it carries the cache file
contents.  When the flag was given and `CacheManager.load` (through
`sorter.load_cache`) rejects the cache, `main` prints an error and
returns 1; otherwise processing proceeds. -/
def mainCachePhase (use_cache_arg : Option (Option CacheData))
    (source_dir output_dir : String) : MainOutcome :=
  match use_cache_arg with
  | none => MainOutcome.proceed false none
  | some cacheContents =>
    match CacheManager.load cacheContents source_dir output_dir with
    | some loaded => MainOutcome.proceed true (some loaded)
    | none => MainOutcome.exitCode 1

/-- Least-significant-first decimal digits of `n`, computed with explicit
fuel so that the definition evaluates by kernel reduction. -/
def decDigitsRev (fuel n : Nat) : List Nat :=
  match fuel with
  | 0 => []
  | fuel + 1 => if n = 0 then [] else n % 10 :: decDigitsRev fuel (n / 10)

/-- With enough fuel, `decDigitsRev` computes `Nat.digits 10`. -/
theorem decDigitsRev_eq_digits :
    ∀ fuel n, n ≤ fuel → decDigitsRev fuel n = Nat.digits 10 n := by
  intro fuel
  induction fuel with
  | zero =>
    intro n hn
    have : n = 0 := by omega
    subst this
    simp [decDigitsRev]
  | succ fuel ih =>
    intro n hn
    rw [decDigitsRev]
    by_cases h0 : n = 0
    · subst h0
      simp
    · have hdiv : n / 10 < n := Nat.div_lt_self (Nat.pos_of_ne_zero h0)
        (by norm_num)
      rw [if_neg h0, ih (n / 10) (by omega),
        Nat.digits_def' (by norm_num : 1 < 10) (Nat.pos_of_ne_zero h0)]

/-- Decimal digit list (most significant first) of `n`, each digit < 10. -/
def decimalDigits (n : Nat) : List Char :=
  (decDigitsRev n n).reverse.map Nat.digitChar

/-- Decimal rendering of a number, as a Python f-string formats an int. -/
def decimalRepr (n : Nat) : String :=
  if n = 0 then "0" else String.mk (decimalDigits n)

/-- Destination path `os.path.join(dest_dir, f"{name}_{counter}{ext}")`
built by the conflict loop of `MediaSorter._move_file` (path join is
modelled as inserting a single separator). -/
def destCandidate (dest_dir name ext : String) (counter : Nat) : String :=
  dest_dir ++ "/" ++ (name ++ "_" ++ decimalRepr counter ++ ext)

/-- The `while os.path.exists(dest_path)` loop of `MediaSorter._move_file`:
starting from `dest_path` and `counter`, keep proposing
`destCandidate dest_dir name ext counter` with increasing counter until a
path outside `occupied` (the set of existing paths) is found.  The loop
has no exit of its own in the code; the fuel only bounds the model. -/
def findFreeDest (occupied : List String) (dest_dir name ext : String) :
    Nat → String → Nat → Option String
  | 0, _, _ => none
  | fuel + 1, dest_path, counter =>
    if dest_path ∈ occupied then
      findFreeDest occupied dest_dir name ext fuel
        (destCandidate dest_dir name ext counter) (counter + 1)
    else some dest_path

/-- Model of `MediaSorter._move_file` for a file whose basename splits as
`name + ext` under `os.path.splitext`: resolve the conflict-free
destination, then `shutil.move` the file there, which adds the chosen
path to the destination directory contents. -/
def move_file (occupied : List String) (dest_dir name ext : String)
    (fuel : Nat) : Option (String × List String) :=
  match findFreeDest occupied dest_dir name ext fuel
      (dest_dir ++ "/" ++ (name ++ ext)) 1 with
  | none => none
  | some dest_path => some (dest_path, dest_path :: occupied)

/-- Candidate the conflict loop tests on its i-th iteration when started
from `dest0` with counter `c`: the original name first, then the numbered
names. -/
def candAt (dest_dir name ext dest0 : String) (c i : Nat) : String :=
  if i = 0 then dest0 else destCandidate dest_dir name ext (c + i - 1)

/-- Body of the per-file loop of `MediaSorter._process_file_list`: look
the file up in the cached classifications when `use_cache` is on,
otherwise classify with the duplicate check; then issue the `shutil.move`
call unless this is a dry run. -/
def processStep (classify : String → Category)
    (hashOf : String → Option String) (dry_run use_cache : Bool)
    (acc : SorterState × List (String × Category)) (fp : String) :
    SorterState × List (String × Category) :=
  let lookup := if use_cache then acc.1.classifications fp else none
  let res :=
    match lookup with
    | some category => (category, acc.1)
    | none => classify_with_duplicate_check classify hashOf acc.1 fp
  (res.2, if dry_run then acc.2 else acc.2 ++ [(fp, res.1)])

/-- Result of `MediaSorter._process_file_list`: the final state plus the
`shutil.move` calls issued (source path and category), in order. -/
def process_file_list (classify : String → Category)
    (hashOf : String → Option String) (dry_run use_cache : Bool)
    (st0 : SorterState) (files : List String) :
    SorterState × List (String × Category) :=
  files.foldl (processStep classify hashOf dry_run use_cache) (st0, [])

/-- Observable effects of `MediaSorter.process_files`: final state, move
calls issued, and whether the classification cache file was written. -/
structure ProcessOutcome where
  state : SorterState
  moves : List (String × Category)
  cacheWritten : Bool

/-- Model of `MediaSorter.process_files` (printing and timing dropped):
when no files are found the method returns early; otherwise it runs
`_process_file_list` and afterwards saves the cache file exactly when a
save path was supplied and `use_cache` is off — regardless of `dry_run`. -/
def process_files (classify : String → Category)
    (hashOf : String → Option String) (dry_run use_cache : Bool)
    (save_cache_file : Option String) (st0 : SorterState)
    (files : List String) : ProcessOutcome :=
  if files.isEmpty then
    { state := st0, moves := [], cacheWritten := false }
  else
    let res := process_file_list classify hashOf dry_run use_cache st0 files
    { state := res.1
      moves := res.2
      cacheWritten := save_cache_file.isSome && !use_cache }

/-- Single rule of the flattened table the Pattern Matcher contract in the
specification describes: a pattern, whether the search carries the
case-insensitive flag, the string it is matched against, and the category
it assigns. -/
structure SpecRule where
  pattern : String
  ignoreCase : Bool
  target : String
  category : Category

/-- Whether one rule of the flattened table matches. -/
def specRuleMatches (searchCI searchCS : String → String → Bool)
    (r : SpecRule) : Bool :=
  if r.ignoreCase then searchCI r.pattern r.target
  else searchCS r.pattern r.target

/-- Pattern Matcher as the specification words it: one flattened rule
table in fixed group precedence cache > personal > app_icons >
game_assets, rules within a group in table order, the first matching rule
deciding; cache, app_icons, game_assets matched against the lowercased
filename, personal against the original filename in case-insensitive
mode; `none` when nothing matches. -/
def patternMatcherSpec (searchCI searchCS : String → String → Bool)
    (pats : Patterns) (filename : String) : Option Category :=
  let lower := filename.toLower
  let table : List SpecRule :=
    pats.cache.map (fun p => ⟨p, true, lower, Category.system_cache⟩)
      ++ pats.personal.map (fun p => ⟨p, true, filename, Category.personal⟩)
      ++ pats.app_icons.map (fun p => ⟨p, false, lower, Category.app_icons⟩)
      ++ pats.game_assets.map (fun p => ⟨p, false, lower, Category.game_assets⟩)
  (table.find? (specRuleMatches searchCI searchCS)).map SpecRule.category

/-- Variant of `classify_video` with the redundant personal-pattern
re-check removed: only the size threshold decides. -/
def classify_video_noRecheck (th : Thresholds) (sizeMB : Option ℚ) :
    Category :=
  match sizeMB with
  | some size_mb =>
    if th.min_video_size_mb < size_mb then Category.personal
    else Category.review
  | none => Category.review

/-- Variant of `classify_file` whose video branch uses
`classify_video_noRecheck` instead of `classify_video`. -/
def classify_file_noRecheck (searchCI searchCS : String → String → Bool)
    (hasMagic : Bool) (pats : Patterns) (th : Thresholds)
    (info : FileInfo) : Category :=
  match classify_by_filename searchCI searchCS pats info.filename with
  | some category => category
  | none =>
    match effectiveMime hasMagic info with
    | none => Category.review
    | some mime =>
      if pyStartsWith mime "image/" then
        classify_by_dimensions th info.dims
      else if pyStartsWith mime "video/" then
        classify_video_noRecheck th info.sizeMB
      else
        Category.review

/-- Outcome of running the classifier with the dimension probe carried
out on the file's actual bytes: either a category, or non-termination
inside the JPEG marker loop of `ImageAnalyzer.get_dimensions` (the
Python call never returns, so no category is ever produced). -/
inductive ClassifyResult where
  | cat (c : Category)
  | hang
deriving DecidableEq, Repr

/-- `FileClassifier.classify_by_dimensions` with the call
`ImageAnalyzer.get_dimensions(filepath)` made explicit on the byte stream
`content` of the file: the (None, None) outcome degrades to review, a
returned pair goes through the threshold bands, and a hang of the marker
loop propagates — the function never returns. -/
def classify_by_dimensions_bytes (th : Thresholds) (content : List Nat) :
    ClassifyResult :=
  match get_dimensions content with
  | DimResult.hang => ClassifyResult.hang
  | DimResult.nodims => ClassifyResult.cat Category.review
  | DimResult.dims w h =>
    ClassifyResult.cat (classify_by_dimensions th (some (w, h)))

/-- `FileClassifier.classify_file` with the image branch probing the
actual bytes `content` of the file through
`ImageAnalyzer.get_dimensions` (the `dims` oracle field of `info` is
unused here; everything else is as in `classify_file`). -/
def classify_file_bytes (searchCI searchCS : String → String → Bool)
    (hasMagic : Bool) (pats : Patterns) (th : Thresholds)
    (info : FileInfo) (content : List Nat) : ClassifyResult :=
  match classify_by_filename searchCI searchCS pats info.filename with
  | some category => ClassifyResult.cat category
  | none =>
    match effectiveMime hasMagic info with
    | none => ClassifyResult.cat Category.review
    | some mime =>
      if pyStartsWith mime "image/" then
        classify_by_dimensions_bytes th content
      else if pyStartsWith mime "video/" then
        ClassifyResult.cat (classify_video searchCI pats.personal th
          info.filename info.sizeMB)
      else
        ClassifyResult.cat Category.review

/-- Characterisation of a no-match answer of `classify_by_filename`: all
four group checks failed. -/
theorem classify_by_filename_eq_none_iff
    (searchCI searchCS : String → String → Bool) (pats : Patterns)
    (filename : String) :
    classify_by_filename searchCI searchCS pats filename = none ↔
      pats.cache.any (fun p => searchCI p filename.toLower) = false ∧
      pats.personal.any (fun p => searchCI p filename) = false ∧
      pats.app_icons.any (fun p => searchCS p filename.toLower) = false ∧
      pats.game_assets.any (fun p => searchCS p filename.toLower) = false := by
  cases hc : pats.cache.any (fun p => searchCI p filename.toLower) <;>
  cases hp : pats.personal.any (fun p => searchCI p filename) <;>
  cases ha : pats.app_icons.any (fun p => searchCS p filename.toLower) <;>
  cases hg : pats.game_assets.any (fun p => searchCS p filename.toLower) <;>
  simp only [classify_by_filename, hc, hp, ha, hg] <;> simp

/-- C10: under the built-in default thresholds (icon band 256 checked
before thumbnail band 200) `classify_by_dimensions` can never answer
thumbnails, whatever the dimensions. -/
theorem C10_thumbnails_unreachable_default (dims : Option (Nat × Nat)) :
    classify_by_dimensions defaultThresholds dims ≠ Category.thumbnails := by
  match dims with
  | none => simp [classify_by_dimensions]
  | some (w, h) =>
    simp only [classify_by_dimensions, defaultThresholds]
    split_ifs with h1 h2 h3 <;> simp_all
    omega

/-- C1: `classify_file` decides by the strict ordered procedure: a
filename-pattern category is returned as is, dimension and size analysis
skipped; otherwise an undetermined MIME type gives review; an image type
is decided by the dimension bands max-dim-vs-icon, then
max-dim-vs-thumbnail, then min-dim-vs-photo, in that order, else review;
a video type by file size strictly greater than the video threshold; any
other type gives review. -/
theorem C1_classify_file_ordered_procedure
    (searchCI searchCS : String → String → Bool) (hasMagic : Bool)
    (pats : Patterns) (th : Thresholds) (info : FileInfo) :
    (∀ c, classify_by_filename searchCI searchCS pats info.filename = some c →
      classify_file searchCI searchCS hasMagic pats th info = c)
    ∧ (classify_by_filename searchCI searchCS pats info.filename = none →
      (effectiveMime hasMagic info = none →
        classify_file searchCI searchCS hasMagic pats th info = Category.review)
      ∧ (∀ m, effectiveMime hasMagic info = some m →
          pyStartsWith m "image/" = true →
          classify_file searchCI searchCS hasMagic pats th info =
            (match info.dims with
             | none => Category.review
             | some (w, h) =>
               if max w h ≤ th.icon_max_dimension then Category.app_icons
               else if max w h ≤ th.thumbnail_max_dimension then
                 Category.thumbnails
               else if th.min_photo_dimension ≤ min w h then Category.personal
               else Category.review))
      ∧ (∀ m, effectiveMime hasMagic info = some m →
          pyStartsWith m "image/" = false → pyStartsWith m "video/" = true →
          classify_file searchCI searchCS hasMagic pats th info =
            (match info.sizeMB with
             | some s =>
               if th.min_video_size_mb < s then Category.personal
               else Category.review
             | none => Category.review))
      ∧ (∀ m, effectiveMime hasMagic info = some m →
          pyStartsWith m "image/" = false → pyStartsWith m "video/" = false →
          classify_file searchCI searchCS hasMagic pats th info =
            Category.review)) := by
  constructor
  · intro c hc
    unfold classify_file
    rw [hc]
  · intro hnone
    have hpers :
        pats.personal.any (fun p => searchCI p info.filename) = false :=
      ((classify_by_filename_eq_none_iff searchCI searchCS pats
        info.filename).mp hnone).2.1
    refine ⟨?_, ?_, ?_, ?_⟩
    · intro hmime
      simp only [classify_file, hnone, hmime]
    · intro m hm himg
      simp only [classify_file, hnone, hm, himg, if_true]
      rcases hd : info.dims with _ | ⟨w, h⟩ <;>
        simp [classify_by_dimensions, hd]
    · intro m hm himg hvid
      simp only [classify_file, hnone, hm, himg, hvid, Bool.false_eq_true,
        if_false, if_true]
      simp only [classify_video, hpers, Bool.false_eq_true, if_false]
    · intro m hm himg hvid
      simp only [classify_file, hnone, hm, himg, hvid, Bool.false_eq_true,
        if_false]

/-- Witness for C1: a 1920 by 1080 image with no matching filename pattern
lands in personal through the dimension bands. -/
theorem C1_witness :
    classify_file (fun _ _ => false) (fun _ _ => false) false
      ⟨[], [], [], []⟩ defaultThresholds
      ⟨"photo.jpg", some "image/jpeg", none, some (1920, 1080), none⟩ =
      Category.personal := by
  have h := (C1_classify_file_ordered_procedure (fun _ _ => false)
    (fun _ _ => false) false ⟨[], [], [], []⟩ defaultThresholds
    ⟨"photo.jpg", some "image/jpeg", none, some (1920, 1080), none⟩).2
    (by decide)
  exact (h.2.1 "image/jpeg" (by decide) (by decide)).trans (by decide)

/-- On the two-byte stream FF D8 the JPEG marker loop never terminates,
whatever fuel it is granted: the marker read returns FF D8, the length
read at the end of file returns nothing (length 0), and the seek of
0 - 2 moves back to position 0, repeating the iteration forever. -/
theorem jpegScan_ffd8_hang :
    ∀ fuel, jpegScan [0xFF, 0xD8] fuel 0 = DimResult.hang := by
  intro fuel
  induction fuel with
  | zero => rfl
  | succ fuel ih => exact ih

/-- Counterexample for C7: classification is neither total nor uniformly
degrading to review.  A file named zz.jpg whose contents are exactly the
two JPEG signature bytes FF D8 (no pattern match, extension MIME
image/jpeg) makes `classify_file` spin forever inside the marker loop of
`get_dimensions` — no category is ever produced (by
`jpegScan_ffd8_hang`, no amount of fuel ends the loop).  And a file
named zz.png containing only the 8 PNG signature bytes — a malformed,
truncated header — is classified app_icons (the empty reads decode to
(0, 0), inside the icon band), not review. -/
theorem C7_counterexample :
    classify_file_bytes (fun _ _ => false) (fun _ _ => false) false
      ⟨[], [], [], []⟩ defaultThresholds
      ⟨"zz.jpg", some "image/jpeg", none, none, none⟩ [0xFF, 0xD8] =
      ClassifyResult.hang ∧
    classify_file_bytes (fun _ _ => false) (fun _ _ => false) false
      ⟨[], [], [], []⟩ defaultThresholds
      ⟨"zz.png", some "image/png", none, none, none⟩
      [0x89, 0x50, 0x4E, 0x47, 0x0D, 0x0A, 0x1A, 0x0A] =
      ClassifyResult.cat Category.app_icons := by
  decide

/-- C7 (amended): no path of `classify_file` raises an unhandled failure,
and every failure the code detects degrades the file to review: no
determinable MIME type, a dimension probe answering (None, None), or a
failed size probe for a video.  Classification is however not total, and
malformed image headers do not reliably degrade: when the header scan
hangs, `classify_file` never returns, and when a malformed header still
decodes to numbers, the file is classified by those numbers through the
threshold bands rather than sent to review. -/
theorem C7_amended_never_raises (searchCI searchCS : String → String → Bool)
    (hasMagic : Bool) (pats : Patterns) (th : Thresholds) (info : FileInfo)
    (content : List Nat) :
    (classify_by_filename searchCI searchCS pats info.filename = none →
      effectiveMime hasMagic info = none →
      classify_file_bytes searchCI searchCS hasMagic pats th info content =
        ClassifyResult.cat Category.review)
    ∧ (∀ m, classify_by_filename searchCI searchCS pats info.filename = none →
        effectiveMime hasMagic info = some m →
        pyStartsWith m "image/" = true →
        get_dimensions content = DimResult.nodims →
        classify_file_bytes searchCI searchCS hasMagic pats th info content =
          ClassifyResult.cat Category.review)
    ∧ (∀ m, classify_by_filename searchCI searchCS pats info.filename = none →
        effectiveMime hasMagic info = some m →
        pyStartsWith m "image/" = true →
        get_dimensions content = DimResult.hang →
        classify_file_bytes searchCI searchCS hasMagic pats th info content =
          ClassifyResult.hang)
    ∧ (∀ m w h, classify_by_filename searchCI searchCS pats info.filename = none →
        effectiveMime hasMagic info = some m →
        pyStartsWith m "image/" = true →
        get_dimensions content = DimResult.dims w h →
        classify_file_bytes searchCI searchCS hasMagic pats th info content =
          ClassifyResult.cat (classify_by_dimensions th (some (w, h))))
    ∧ (∀ m, classify_by_filename searchCI searchCS pats info.filename = none →
        effectiveMime hasMagic info = some m →
        pyStartsWith m "image/" = false → pyStartsWith m "video/" = true →
        info.sizeMB = none →
        classify_file_bytes searchCI searchCS hasMagic pats th info content =
          ClassifyResult.cat Category.review) := by
  refine ⟨?_, ?_, ?_, ?_, ?_⟩
  · intro hnone hmime
    simp only [classify_file_bytes, hnone, hmime]
  · intro m hnone hm himg hdims
    simp only [classify_file_bytes, hnone, hm, himg, if_true]
    simp [classify_by_dimensions_bytes, hdims]
  · intro m hnone hm himg hdims
    simp only [classify_file_bytes, hnone, hm, himg, if_true]
    simp [classify_by_dimensions_bytes, hdims]
  · intro m w h hnone hm himg hdims
    simp only [classify_file_bytes, hnone, hm, himg, if_true]
    simp [classify_by_dimensions_bytes, hdims]
  · intro m hnone hm himg hvid hsz
    have hpers :
        pats.personal.any (fun p => searchCI p info.filename) = false :=
      ((classify_by_filename_eq_none_iff searchCI searchCS pats
        info.filename).mp hnone).2.1
    simp only [classify_file_bytes, hnone, hm, himg, hvid,
      Bool.false_eq_true, if_false, if_true]
    simp [classify_video, hpers, hsz]

/-- Witness for C7 (amended): a file with no pattern match, MIME
image/png, and contents that carry no recognised signature (so the
dimension probe answers (None, None)) resolves to review. -/
theorem C7_amended_witness :
    classify_file_bytes (fun _ _ => false) (fun _ _ => false) false
      ⟨[], [], [], []⟩ defaultThresholds
      ⟨"pic.png", some "image/png", none, none, none⟩ [0x42] =
      ClassifyResult.cat Category.review :=
  (C7_amended_never_raises (fun _ _ => false) (fun _ _ => false) false
    ⟨[], [], [], []⟩ defaultThresholds
    ⟨"pic.png", some "image/png", none, none, none⟩ [0x42]).2.1
    "image/png" (by decide) (by decide) (by decide) (by decide)

/-- C9: whenever `classify_video` is reached from `classify_file` (that
is, `classify_by_filename` answered no match), the personal-pattern
re-check at its start matches nothing, so `classify_video` agrees with
the variant without the re-check; consequently `classify_file` and
`classify_file_noRecheck` agree on every input. -/
theorem C9_video_recheck_redundant
    (searchCI searchCS : String → String → Bool) (hasMagic : Bool)
    (pats : Patterns) (th : Thresholds) (info : FileInfo) :
    (classify_by_filename searchCI searchCS pats info.filename = none →
      pats.personal.any (fun p => searchCI p info.filename) = false ∧
      classify_video searchCI pats.personal th info.filename info.sizeMB =
        classify_video_noRecheck th info.sizeMB)
    ∧ classify_file searchCI searchCS hasMagic pats th info =
        classify_file_noRecheck searchCI searchCS hasMagic pats th info := by
  constructor
  · intro hnone
    have hpers :
        pats.personal.any (fun p => searchCI p info.filename) = false :=
      ((classify_by_filename_eq_none_iff searchCI searchCS pats
        info.filename).mp hnone).2.1
    exact ⟨hpers,
      by simp [classify_video, classify_video_noRecheck, hpers]⟩
  · cases hcf : classify_by_filename searchCI searchCS pats info.filename with
    | some c => simp [classify_file, classify_file_noRecheck, hcf]
    | none =>
      have hpers :
          pats.personal.any (fun p => searchCI p info.filename) = false :=
        ((classify_by_filename_eq_none_iff searchCI searchCS pats
          info.filename).mp hcf).2.1
      simp [classify_file, classify_file_noRecheck, hcf, classify_video,
        classify_video_noRecheck, hpers]

/-- Witness for C9: with an empty personal group (hence no pattern match)
a 10 MB video is decided purely by the size threshold. -/
theorem C9_witness :
    ([] : List String).any
        (fun p => (fun _ _ => false : String → String → Bool) p "clip.mp4") =
          false ∧
    classify_video (fun _ _ => false) [] defaultThresholds "clip.mp4"
        (some 10) =
      classify_video_noRecheck defaultThresholds (some 10) :=
  (C9_video_recheck_redundant (fun _ _ => false) (fun _ _ => false) false
    ⟨[], [], [], []⟩ defaultThresholds
    ⟨"clip.mp4", some "video/mp4", none, none, some 10⟩).1 (by decide)

/-- Mapping distributes over the first-match choice of two optional
results. -/
theorem option_map_or {α β : Type _} (f : α → β) (a b : Option α) :
    (a.or b).map f = (a.map f).or (b.map f) := by
  cases a <;> rfl

/-- Helper for C3: searching a mapped homogeneous rule group for the first
match and projecting the category equals testing whether any pattern of
the group matches. -/
theorem find?_map_rule (searchCI searchCS : String → String → Bool)
    (mk : String → SpecRule) (m : String → Bool) (c : Category)
    (hmk : ∀ p, specRuleMatches searchCI searchCS (mk p) = m p ∧
      (mk p).category = c) :
    ∀ l : List String,
      ((l.map mk).find? (specRuleMatches searchCI searchCS)).map
          SpecRule.category =
        if l.any m then some c else none := by
  intro l
  induction l with
  | nil => simp
  | cons p l ih =>
    rcases hmk p with ⟨h1, h2⟩
    cases hm : m p with
    | true =>
      rw [List.map_cons, List.find?_cons_of_pos _ (by rw [h1, hm])]
      simp [List.any_cons, hm, h2]
    | false =>
      rw [List.map_cons, List.find?_cons_of_neg _ (by rw [h1, hm]; simp),
        ih]
      simp [List.any_cons, hm]

/-- C3: `classify_by_filename` computes exactly the Pattern Matcher the
specification describes: the first matching rule of the flattened table
under fixed group precedence cache > personal > app_icons > game_assets,
rules within a group in table order, cache / app_icons / game_assets
matched against the lowercased filename, personal against the original
filename in case-insensitive mode, and no match giving `none`. -/
theorem C3_pattern_matcher_first_match
    (searchCI searchCS : String → String → Bool) (pats : Patterns)
    (filename : String) :
    classify_by_filename searchCI searchCS pats filename =
      patternMatcherSpec searchCI searchCS pats filename := by
  unfold patternMatcherSpec
  simp only [List.find?_append, option_map_or]
  rw [find?_map_rule searchCI searchCS
      (fun p => ⟨p, true, filename.toLower, Category.system_cache⟩)
      (fun p => searchCI p filename.toLower) Category.system_cache
      (fun p => ⟨rfl, rfl⟩) pats.cache,
    find?_map_rule searchCI searchCS
      (fun p => ⟨p, true, filename, Category.personal⟩)
      (fun p => searchCI p filename) Category.personal
      (fun p => ⟨rfl, rfl⟩) pats.personal,
    find?_map_rule searchCI searchCS
      (fun p => ⟨p, false, filename.toLower, Category.app_icons⟩)
      (fun p => searchCS p filename.toLower) Category.app_icons
      (fun p => ⟨rfl, rfl⟩) pats.app_icons,
    find?_map_rule searchCI searchCS
      (fun p => ⟨p, false, filename.toLower, Category.game_assets⟩)
      (fun p => searchCS p filename.toLower) Category.game_assets
      (fun p => ⟨rfl, rfl⟩) pats.game_assets]
  cases hc : pats.cache.any (fun p => searchCI p filename.toLower) <;>
  cases hp : pats.personal.any (fun p => searchCI p filename) <;>
  cases ha : pats.app_icons.any (fun p => searchCS p filename.toLower) <;>
  cases hg : pats.game_assets.any (fun p => searchCS p filename.toLower) <;>
  simp only [classify_by_filename, hc, hp, ha, hg] <;>
  simp [Option.or]

/-- No category is counted under the "duplicates" statistics key. -/
theorem category_key_ne_duplicates (c : Category) : c.key ≠ "duplicates" := by
  cases c <;> decide

/-- After one duplicate-check step a hash is registered with a nonempty
path list exactly when it was before or the processed file bears it. -/
theorem stepState_dups_ne_nil (classify : String → Category)
    (hashOf : String → Option String) (st : SorterState) (fp k : String) :
    ((stepState classify hashOf st fp).dups k ≠ []) ↔
      (st.dups k ≠ [] ∨ hashOf fp = some k) := by
  unfold stepState classify_with_duplicate_check
  cases hh : hashOf fp with
  | none => simp
  | some g =>
    cases hg : (st.dups g).isEmpty with
    | true =>
      have hgnil : st.dups g = [] := List.isEmpty_iff.mp hg
      by_cases hk : k = g
      · subst hk
        simp [hg, hgnil]
      · have hgk : ¬ g = k := fun h => hk h.symm
        simp [hg, hk, hgk]
    | false =>
      have hgne : st.dups g ≠ [] := by
        intro hnil
        rw [hnil] at hg
        simp at hg
      by_cases hk : k = g
      · subst hk
        simp [hg, hgne]
      · have hgk : ¬ g = k := fun h => hk h.symm
        simp [hg, hk, hgk]

/-- Over a whole processed prefix, a hash is registered exactly when it was
registered at the start or some processed file bears it. -/
theorem foldl_dups_ne_nil (classify : String → Category)
    (hashOf : String → Option String) (files : List String) :
    ∀ (st : SorterState) (k : String),
      ((files.foldl (stepState classify hashOf) st).dups k ≠ []) ↔
        (st.dups k ≠ [] ∨ ∃ fp ∈ files, hashOf fp = some k) := by
  induction files with
  | nil => simp
  | cons fp files ih =>
    intro st k
    rw [List.foldl_cons, ih, stepState_dups_ne_nil]
    simp only [List.mem_cons]
    constructor
    · rintro ((h | h) | h)
      · exact Or.inl h
      · exact Or.inr ⟨fp, Or.inl rfl, h⟩
      · rcases h with ⟨q, hq, hqk⟩
        exact Or.inr ⟨q, Or.inr hq, hqk⟩
    · rintro (h | ⟨q, (rfl | hq), hqk⟩)
      · exact Or.inl (Or.inl h)
      · exact Or.inl (Or.inr hqk)
      · exact Or.inr ⟨q, hq, hqk⟩

/-- In a run started from a fresh `MediaSorter`, a hash is registered
exactly when one of the files processed so far bears it. -/
theorem runState_dups_ne_nil (classify : String → Category)
    (hashOf : String → Option String) (files : List String) (k : String) :
    ((runState classify hashOf files).dups k ≠ []) ↔
      (∃ fp ∈ files, hashOf fp = some k) := by
  rw [runState, foldl_dups_ne_nil]
  simp [initState]

/-- C4: in any run, a file whose content hash was not borne by any earlier
file is classified normally (never flagged as duplicate), leaves the
"duplicates" statistic untouched and registers its hash; a file whose
hash some earlier file bore is force-classified system_cache and bumps
the "duplicates" statistic by exactly one. -/
theorem C4_duplicate_tracker (classify : String → Category)
    (hashOf : String → Option String) (pre : List String) (fp g : String) :
    (hashOf fp = some g →
      (∀ q ∈ pre, hashOf q ≠ some g) →
      (classify_with_duplicate_check classify hashOf
          (runState classify hashOf pre) fp).1 = classify fp ∧
      (classify_with_duplicate_check classify hashOf
          (runState classify hashOf pre) fp).2.stats "duplicates" =
        (runState classify hashOf pre).stats "duplicates" ∧
      (classify_with_duplicate_check classify hashOf
          (runState classify hashOf pre) fp).2.dups g ≠ [])
    ∧ (hashOf fp = some g →
      (∃ q ∈ pre, hashOf q = some g) →
      (classify_with_duplicate_check classify hashOf
          (runState classify hashOf pre) fp).1 = Category.system_cache ∧
      (classify_with_duplicate_check classify hashOf
          (runState classify hashOf pre) fp).2.stats "duplicates" =
        (runState classify hashOf pre).stats "duplicates" + 1) := by
  constructor
  · intro hh hfresh
    have hnil : (runState classify hashOf pre).dups g = [] := by
      by_contra hne
      rcases (runState_dups_ne_nil classify hashOf pre g).mp hne with
        ⟨q, hq, hqk⟩
      exact hfresh q hq hqk
    have hkey : ¬ ("duplicates" = (classify fp).key) :=
      fun h => category_key_ne_duplicates (classify fp) h.symm
    refine ⟨?_, ?_, ?_⟩
    · simp [classify_with_duplicate_check, hh, hnil]
    · simp [classify_with_duplicate_check, hh, hnil, bumpStat, hkey]
    · simp [classify_with_duplicate_check, hh, hnil]
  · intro hh hseen
    have hne : (runState classify hashOf pre).dups g ≠ [] :=
      (runState_dups_ne_nil classify hashOf pre g).mpr hseen
    have hisEmpty : ((runState classify hashOf pre).dups g).isEmpty = false := by
      cases hemp : ((runState classify hashOf pre).dups g).isEmpty with
      | false => rfl
      | true => exact absurd (List.isEmpty_iff.mp hemp) hne
    constructor
    · simp [classify_with_duplicate_check, hh, hisEmpty]
    · simp [classify_with_duplicate_check, hh, hisEmpty, bumpStat,
        Category.key]

/-- Witness for C4: with every file hashing to "k", processing "b" after
the one-file run ["a"] flags the repeat: category system_cache and the
"duplicates" statistic going from 0 to 1. -/
theorem C4_witness :
    (classify_with_duplicate_check (fun _ => Category.review)
        (fun _ => some "k")
        (runState (fun _ => Category.review) (fun _ => some "k") ["a"])
        "b").1 = Category.system_cache ∧
    (classify_with_duplicate_check (fun _ => Category.review)
        (fun _ => some "k")
        (runState (fun _ => Category.review) (fun _ => some "k") ["a"])
        "b").2.stats "duplicates" =
      (runState (fun _ => Category.review) (fun _ => some "k")
        ["a"]).stats "duplicates" + 1 :=
  (C4_duplicate_tracker (fun _ => Category.review) (fun _ => some "k")
    ["a"] "b" "k").2 rfl ⟨"a", by simp, rfl⟩

/-- Counterexample for C2: a truncated PNG header — the 8 signature bytes
alone — does not produce the "not determined" result (None, None); the
reads past the end of the file come back empty and decode to 0, so the
function returns (0, 0). -/
theorem C2_counterexample :
    get_dimensions [0x89, 0x50, 0x4E, 0x47, 0x0D, 0x0A, 0x1A, 0x0A] =
      DimResult.dims 0 0 ∧
    get_dimensions [0x89, 0x50, 0x4E, 0x47, 0x0D, 0x0A, 0x1A, 0x0A] ≠
      DimResult.nodims := by
  decide

/-- C2 (amended): a stream bearing the PNG signature yields exactly the
big-endian words decoded from whatever bytes sit at offsets 16 and 20
(the exact encoded dimensions whenever the header is complete, partial or
empty reads otherwise); a stream bearing the JPEG signature whose marker
scan reaches a start-of-frame at `q` yields exactly the big-endian height
and width encoded there; a stream bearing the GIF signature yields
exactly the little-endian words at offsets 6 and 8; only a stream bearing
none of the three signatures is answered with (None, None). -/
theorem C2_amended_header_dims (file : List Nat) :
    (pngSig.isPrefixOf (file.take 24) = true →
      get_dimensions file =
        DimResult.dims (fromBytesBE (readBytes file 16 4))
          (fromBytesBE (readBytes file 20 4)))
    ∧ (pngSig.isPrefixOf (file.take 24) = false →
      jpegSig.isPrefixOf (file.take 24) = true →
      ∀ q, ScanReaches file 0 q →
        get_dimensions file =
          DimResult.dims (fromBytesBE (readBytes file (q + 7) 2))
            (fromBytesBE (readBytes file (q + 5) 2)))
    ∧ (pngSig.isPrefixOf (file.take 24) = false →
      jpegSig.isPrefixOf (file.take 24) = false →
      gifSig.isPrefixOf (file.take 24) = true →
      get_dimensions file =
        DimResult.dims (fromBytesLE (readBytes (file.take 24) 6 2))
          (fromBytesLE (readBytes (file.take 24) 8 2)))
    ∧ (pngSig.isPrefixOf (file.take 24) = false →
      jpegSig.isPrefixOf (file.take 24) = false →
      gifSig.isPrefixOf (file.take 24) = false →
      get_dimensions file = DimResult.nodims) := by
  refine ⟨?_, ?_, ?_, ?_⟩
  · intro hpng
    simp [get_dimensions, hpng]
  · intro hpng hjpeg q hreach
    simp only [get_dimensions, hpng, hjpeg, Bool.false_eq_true, if_false,
      if_true]
    exact jpegScan_of_reaches hreach (file.length + 8) (by omega)
  · intro hpng hjpeg hgif
    simp [get_dimensions, hpng, hjpeg, hgif]
  · intro hpng hjpeg hgif
    simp [get_dimensions, hpng, hjpeg, hgif]

/-- Witness for C2 (amended): on a concrete JPEG stream whose scan steps
over one segment and reaches a start-of-frame at offset 6, the parser
returns the encoded 512 by 256. -/
theorem C2_witness :
    get_dimensions [0xFF, 0xD8, 0x00, 0x04, 0xAA, 0xBB, 0xFF, 0xC0,
      0x00, 0x11, 0x08, 0x01, 0x00, 0x02, 0x00] =
      DimResult.dims 512 256 :=
  ((C2_amended_header_dims [0xFF, 0xD8, 0x00, 0x04, 0xAA, 0xBB, 0xFF,
      0xC0, 0x00, 0x11, 0x08, 0x01, 0x00, 0x02, 0x00]).2.1 (by decide)
    (by decide) 6
    (ScanReaches.step 0 6 0xD8 (by decide) (by decide) (by decide)
      (by decide)
      (ScanReaches.found 6 0xC0 (by decide) (by decide)))).trans
    (by decide)

/-- Counterexample for C6: a cache recorded for the pair ("a", "b"),
loaded against ("x", "b"), is rejected — and the program does not fall
back to live classification: `main` stops with exit code 1. -/
theorem C6_counterexample :
    CacheManager.load (some ⟨some "a", some "b", [], []⟩) "x" "b" = none ∧
    mainCachePhase (some (some ⟨some "a", some "b", [], []⟩)) "x" "b" =
      MainOutcome.exitCode 1 := by
  decide

/-- C6 (amended): a saved cache loaded against a (source_dir, output_dir)
pair differing from the recorded one is rejected in its entirety —
`CacheManager.load` returns nothing, so nothing of it is reused — and the
program then exits with code 1 rather than falling back to live
classification for the run. -/
theorem C6_amended_cache_mismatch (cd : CacheData) (src out : String)
    (h : cd.source_dir ≠ some src ∨ cd.output_dir ≠ some out) :
    CacheManager.load (some cd) src out = none ∧
    mainCachePhase (some (some cd)) src out = MainOutcome.exitCode 1 := by
  have hload : CacheManager.load (some cd) src out = none := by
    simp only [CacheManager.load]
    rw [if_pos h]
  exact ⟨hload, by simp [mainCachePhase, hload]⟩

/-- Witness for C6 (amended): concrete rejected cache. -/
theorem C6_witness :
    CacheManager.load (some ⟨some "src1", some "out", [], []⟩) "src2"
        "out" = none ∧
    mainCachePhase (some (some ⟨some "src1", some "out", [], []⟩)) "src2"
        "out" = MainOutcome.exitCode 1 :=
  C6_amended_cache_mismatch ⟨some "src1", some "out", [], []⟩ "src2" "out"
    (Or.inl (by decide))

/-- Counterexample for C8: in dry-run mode, with a save-cache path
supplied, `process_files` still writes the classification cache file — a
filesystem mutation — so dry-run processing is not entirely
mutation-free. -/
theorem C8_counterexample :
    (process_files (fun _ => Category.review) (fun _ => none) true false
        (some "cache.json") initState ["a"]).cacheWritten = true := by
  rfl

/-- A dry-run loop step keeps the move list untouched and drives the
state exactly as the execute-mode step does. -/
theorem processStep_true_eq (classify : String → Category)
    (hashOf : String → Option String) (use_cache : Bool)
    (st : SorterState) (ms ms' : List (String × Category)) (fp : String) :
    processStep classify hashOf true use_cache (st, ms) fp =
      ((processStep classify hashOf false use_cache (st, ms') fp).1, ms) := by
  simp [processStep]

/-- Over the whole file list, dry-run processing reaches the same state
as execute-mode processing and issues no moves. -/
theorem foldl_process_dry (classify : String → Category)
    (hashOf : String → Option String) (use_cache : Bool)
    (files : List String) :
    ∀ (st : SorterState) (ms ms' : List (String × Category)),
      (files.foldl (processStep classify hashOf true use_cache)
          (st, ms)).1 =
        (files.foldl (processStep classify hashOf false use_cache)
          (st, ms')).1 ∧
      (files.foldl (processStep classify hashOf true use_cache)
          (st, ms)).2 = ms := by
  induction files with
  | nil => simp
  | cons fp files ih =>
    intro st ms ms'
    rw [List.foldl_cons, List.foldl_cons,
      processStep_true_eq classify hashOf use_cache st ms ms' fp]
    exact ih _ ms _

/-- C8 (amended): dry-run processing performs every step — enumeration,
classification, duplicate tracking, stats accumulation — reaching the
same final state as execute mode, and issues no file moves (moves happen
only under the execute flag); however, it is not entirely free of
filesystem mutation: the classification cache file is written even in
dry-run mode, exactly when a save path is supplied, cached
classifications are not in use, and at least one file was found. -/
theorem C8_amended_dry_run (classify : String → Category)
    (hashOf : String → Option String) (use_cache : Bool)
    (save_cache_file : Option String) (st0 : SorterState)
    (files : List String) :
    (process_files classify hashOf true use_cache save_cache_file st0
        files).moves = [] ∧
    (process_files classify hashOf true use_cache save_cache_file st0
        files).state =
      (process_files classify hashOf false use_cache save_cache_file st0
        files).state ∧
    (process_files classify hashOf true use_cache save_cache_file st0
        files).cacheWritten =
      (save_cache_file.isSome && !use_cache && !files.isEmpty) := by
  cases hemp : files.isEmpty with
  | true =>
    rw [List.isEmpty_iff] at hemp
    subst hemp
    simp [process_files]
  | false =>
    have h := foldl_process_dry classify hashOf use_cache files st0 [] []
    simp only [process_files, process_file_list, hemp, Bool.false_eq_true,
      if_false, Bool.not_false, Bool.and_true]
    exact ⟨h.2, h.1, trivial⟩

/-- Decimal digit characters are pairwise distinct. -/
theorem digitChar_inj_lt :
    ∀ d1, d1 < 10 → ∀ d2, d2 < 10 →
      Nat.digitChar d1 = Nat.digitChar d2 → d1 = d2 := by
  decide

/-- Mapping `Nat.digitChar` over digit lists (all entries below 10) is
injective. -/
theorem map_digitChar_inj :
    ∀ (l1 l2 : List Nat), (∀ d ∈ l1, d < 10) → (∀ d ∈ l2, d < 10) →
      l1.map Nat.digitChar = l2.map Nat.digitChar → l1 = l2 := by
  intro l1
  induction l1 with
  | nil =>
    intro l2 _ _ h
    cases l2 with
    | nil => rfl
    | cons b l2 => simp at h
  | cons a l1 ih =>
    intro l2 h1 h2 h
    cases l2 with
    | nil => simp at h
    | cons b l2 =>
      simp only [List.map_cons, List.cons.injEq] at h
      have hab : a = b :=
        digitChar_inj_lt a (h1 a (by simp)) b (h2 b (by simp)) h.1
      rw [hab,
        ih l2 (fun d hd => h1 d (by simp [hd]))
          (fun d hd => h2 d (by simp [hd])) h.2]

/-- The decimal digit-character list determines the number. -/
theorem decimalDigits_inj {n m : Nat}
    (h : decimalDigits n = decimalDigits m) : n = m := by
  unfold decimalDigits at h
  rw [decDigitsRev_eq_digits n n le_rfl,
    decDigitsRev_eq_digits m m le_rfl] at h
  have hrev : (Nat.digits 10 n).reverse = (Nat.digits 10 m).reverse :=
    map_digitChar_inj _ _
      (fun d hd =>
        Nat.digits_lt_base (by norm_num) (List.mem_reverse.mp hd))
      (fun d hd =>
        Nat.digits_lt_base (by norm_num) (List.mem_reverse.mp hd)) h
  have hdig : Nat.digits 10 n = Nat.digits 10 m := by
    have := congrArg List.reverse hrev
    simpa using this
  calc n = Nat.ofDigits 10 (Nat.digits 10 n) :=
        (Nat.ofDigits_digits 10 n).symm
    _ = Nat.ofDigits 10 (Nat.digits 10 m) := by rw [hdig]
    _ = m := Nat.ofDigits_digits 10 m

/-- Decimal rendering is injective on positive counters. -/
theorem decimalRepr_inj_pos {n m : Nat} (hn : 0 < n) (hm : 0 < m)
    (h : decimalRepr n = decimalRepr m) : n = m := by
  unfold decimalRepr at h
  rw [if_neg (by omega), if_neg (by omega)] at h
  exact decimalDigits_inj (by simpa using congrArg String.data h)

/-- The decimal rendering of any counter has at least one character. -/
theorem one_le_decimalRepr_length (i : Nat) :
    1 ≤ (decimalRepr i).length := by
  unfold decimalRepr
  by_cases h0 : i = 0
  · subst h0
    decide
  · rw [if_neg h0]
    show 1 ≤ (decimalDigits i).length
    unfold decimalDigits
    rw [decDigitsRev_eq_digits i i le_rfl]
    simp only [List.length_map, List.length_reverse]
    have hne : Nat.digits 10 i ≠ [] := Nat.digits_ne_nil_iff_ne_zero.mpr h0
    cases hd : Nat.digits 10 i with
    | nil => exact absurd hd hne
    | cons a l => simp

/-- Length of a numbered conflict candidate. -/
theorem destCandidate_length (d n e : String) (i : Nat) :
    (destCandidate d n e i).length =
      d.length + 1 + (n.length + 1 + (decimalRepr i).length + e.length) := by
  have hs : ("/" : String).length = 1 := by decide
  have hu : ("_" : String).length = 1 := by decide
  simp [destCandidate, String.length_append, hs, hu]

/-- Length of the unnumbered first candidate. -/
theorem dest0_length (d n e : String) :
    (d ++ "/" ++ (n ++ e)).length = d.length + 1 + (n.length + e.length) := by
  have hs : ("/" : String).length = 1 := by decide
  simp [String.length_append, hs]

/-- Distinct positive counters give distinct numbered candidates. -/
theorem destCandidate_inj (d n e : String) {i j : Nat}
    (hi : 0 < i) (hj : 0 < j)
    (h : destCandidate d n e i = destCandidate d n e j) : i = j := by
  apply decimalRepr_inj_pos hi hj
  have hd := congrArg String.data h
  simp only [destCandidate, String.data_append, List.append_assoc] at hd
  have h1 := List.append_cancel_left hd
  have h2 := List.append_cancel_left h1
  have h3 := List.append_cancel_left h2
  have h4 := List.append_cancel_left h3
  have h5 := List.append_cancel_right h4
  exact String.ext h5

/-- The candidate tested on iteration `i + 1` when starting from `dest`
with counter `c` is the candidate tested on iteration `i` after one pass
of the loop body. -/
theorem candAt_shift (d n e dest : String) (c i : Nat) :
    candAt d n e (destCandidate d n e c) (c + 1) i =
      candAt d n e dest c (i + 1) := by
  cases i with
  | zero =>
    simp only [candAt, if_pos rfl, if_neg (Nat.succ_ne_zero 0)]
    congr 1
  | succ i =>
    simp only [candAt, if_neg (Nat.succ_ne_zero i),
      if_neg (Nat.succ_ne_zero (i + 1))]
    congr 1
    omega

/-- The candidate sequence of `_move_file` (original name, then the
numbered names) never repeats a path. -/
theorem candAt_injective (d n e : String) :
    Function.Injective
      (fun i => candAt d n e (d ++ "/" ++ (n ++ e)) 1 i) := by
  intro i j h
  simp only [candAt] at h
  rcases i with _ | i <;> rcases j with _ | j
  · rfl
  · exfalso
    rw [if_pos rfl, if_neg (Nat.succ_ne_zero j)] at h
    have hl := congrArg String.length h
    rw [dest0_length, destCandidate_length] at hl
    have := one_le_decimalRepr_length (1 + (j + 1) - 1)
    omega
  · exfalso
    rw [if_pos rfl, if_neg (Nat.succ_ne_zero i)] at h
    have hl := congrArg String.length h.symm
    rw [dest0_length, destCandidate_length] at hl
    have := one_le_decimalRepr_length (1 + (i + 1) - 1)
    omega
  · rw [if_neg (Nat.succ_ne_zero i), if_neg (Nat.succ_ne_zero j)] at h
    have := destCandidate_inj d n e (i := 1 + (i + 1) - 1)
      (j := 1 + (j + 1) - 1) (by omega) (by omega) h
    omega

/-- When the conflict loop runs out of fuel without an answer, every
candidate it tested was an existing path. -/
theorem findFreeDest_mem_of_none (occupied : List String)
    (d n e : String) :
    ∀ (fuel : Nat) (dest : String) (c : Nat),
      findFreeDest occupied d n e fuel dest c = none →
      ∀ i < fuel, candAt d n e dest c i ∈ occupied := by
  intro fuel
  induction fuel with
  | zero =>
    intro dest c _ i hi
    omega
  | succ fuel ih =>
    intro dest c h i hi
    rw [findFreeDest] at h
    by_cases hmem : dest ∈ occupied
    · rw [if_pos hmem] at h
      match i with
      | 0 => simpa [candAt] using hmem
      | i + 1 =>
        rw [← candAt_shift d n e dest c i]
        exact ih _ _ h i (by omega)
    · rw [if_neg hmem] at h
      simp at h

/-- When the conflict loop answers, the answer is not an existing path
and it is the first candidate in loop order that is free. -/
theorem findFreeDest_first_free (occupied : List String) (d n e : String) :
    ∀ (fuel : Nat) (dest : String) (c : Nat) (res : String),
      findFreeDest occupied d n e fuel dest c = some res →
      res ∉ occupied ∧
      ∃ k, k < fuel ∧ res = candAt d n e dest c k ∧
        ∀ j < k, candAt d n e dest c j ∈ occupied := by
  intro fuel
  induction fuel with
  | zero =>
    intro dest c res h
    simp [findFreeDest] at h
  | succ fuel ih =>
    intro dest c res h
    rw [findFreeDest] at h
    by_cases hmem : dest ∈ occupied
    · rw [if_pos hmem] at h
      obtain ⟨hres, k, hk, hck, hprev⟩ := ih _ _ _ h
      refine ⟨hres, k + 1, by omega, ?_, ?_⟩
      · rw [← candAt_shift d n e dest c k]
        exact hck
      · intro j hj
        match j with
        | 0 => simpa [candAt] using hmem
        | j + 1 =>
          rw [← candAt_shift d n e dest c j]
          exact hprev j (by omega)
    · rw [if_neg hmem] at h
      obtain rfl : dest = res := by simpa using h
      exact ⟨hmem, 0, by omega, by simp [candAt],
        fun j hj => absurd hj (by omega)⟩

/-- With fuel exceeding the number of existing paths by two, the conflict
loop of `_move_file` always finds a free destination: its candidates are
pairwise distinct, so they cannot all be existing paths. -/
theorem findFreeDest_isSome (occupied : List String) (d n e : String) :
    (findFreeDest occupied d n e (occupied.length + 2)
      (d ++ "/" ++ (n ++ e)) 1).isSome = true := by
  cases hfind : findFreeDest occupied d n e (occupied.length + 2)
      (d ++ "/" ++ (n ++ e)) 1 with
  | some _ => rfl
  | none =>
    exfalso
    have hmem := findFreeDest_mem_of_none occupied d n e
      (occupied.length + 2) _ 1 hfind
    have hnodup : ((List.range (occupied.length + 2)).map
        (fun i => candAt d n e (d ++ "/" ++ (n ++ e)) 1 i)).Nodup :=
      List.Nodup.map (candAt_injective d n e) (List.nodup_range _)
    have hsub : ((List.range (occupied.length + 2)).map
        (fun i => candAt d n e (d ++ "/" ++ (n ++ e)) 1 i)) ⊆ occupied := by
      intro x hx
      rcases List.mem_map.mp hx with ⟨i, hi, rfl⟩
      exact hmem i (List.mem_range.mp hi)
    have hlen := (List.subperm_of_subset hnodup hsub).length_le
    simp at hlen

/-- Unfolding a successful `move_file`: the conflict loop answered that
destination, and the destination directory gains exactly that path. -/
theorem move_file_eq (occupied : List String) (d n e : String)
    (fuel : Nat) (dest : String) (occ1 : List String)
    (h : move_file occupied d n e fuel = some (dest, occ1)) :
    findFreeDest occupied d n e fuel (d ++ "/" ++ (n ++ e)) 1 =
      some dest ∧ occ1 = dest :: occupied := by
  unfold move_file at h
  cases hf : findFreeDest occupied d n e fuel (d ++ "/" ++ (n ++ e)) 1 with
  | none => rw [hf] at h; simp at h
  | some x =>
    rw [hf] at h
    simp only [Option.some.injEq, Prod.mk.injEq] at h
    obtain ⟨rfl, hocc⟩ := h
    exact ⟨rfl, hocc.symm⟩

/-- C5: the conflict policy of `_move_file` is deterministic and safe.
With fuel two beyond the number of existing destination paths the loop
always finds a name (part one); any successful move picks, in loop order,
the first candidate — the original name, then name_1, name_2, … — that
does not yet exist, never overwriting an existing path (part two); and
moving two files of the same basename into the same directory one after
the other leaves two distinct paths on disk (part three). -/
theorem C5_conflict_safe_move (occupied : List String) (d n e : String) :
    (∃ dest occ1,
      move_file occupied d n e (occupied.length + 2) = some (dest, occ1))
    ∧ (∀ fuel dest occ1,
        move_file occupied d n e fuel = some (dest, occ1) →
        dest ∉ occupied ∧ occ1 = dest :: occupied ∧
        ∃ k, k < fuel ∧
          dest = candAt d n e (d ++ "/" ++ (n ++ e)) 1 k ∧
          ∀ j < k, candAt d n e (d ++ "/" ++ (n ++ e)) 1 j ∈ occupied)
    ∧ (∀ fuel1 fuel2 dest1 occ1 dest2 occ2,
        move_file occupied d n e fuel1 = some (dest1, occ1) →
        move_file occ1 d n e fuel2 = some (dest2, occ2) →
        dest1 ≠ dest2 ∧ dest1 ∈ occ2 ∧ dest2 ∈ occ2) := by
  refine ⟨?_, ?_, ?_⟩
  · have hs := findFreeDest_isSome occupied d n e
    cases hf : findFreeDest occupied d n e (occupied.length + 2)
        (d ++ "/" ++ (n ++ e)) 1 with
    | none => rw [hf] at hs; simp at hs
    | some x =>
      refine ⟨x, x :: occupied, ?_⟩
      unfold move_file
      rw [hf]
  · intro fuel dest occ1 h
    obtain ⟨hfind, hocc⟩ := move_file_eq occupied d n e fuel dest occ1 h
    obtain ⟨hnot, k, hk, hck, hprev⟩ :=
      findFreeDest_first_free occupied d n e fuel _ 1 dest hfind
    exact ⟨hnot, hocc, k, hk, hck, hprev⟩
  · intro fuel1 fuel2 dest1 occ1 dest2 occ2 h1 h2
    obtain ⟨hfind1, hocc1⟩ := move_file_eq occupied d n e fuel1 dest1 occ1 h1
    obtain ⟨hfind2, hocc2⟩ := move_file_eq occ1 d n e fuel2 dest2 occ2 h2
    have hnot2 : dest2 ∉ occ1 :=
      (findFreeDest_first_free occ1 d n e fuel2 _ 1 dest2 hfind2).1
    have hmem1 : dest1 ∈ occ1 := by
      rw [hocc1]
      exact List.mem_cons_self dest1 occupied
    refine ⟨?_, ?_, ?_⟩
    · intro heq
      exact hnot2 (heq ▸ hmem1)
    · rw [hocc2]
      exact List.mem_cons_of_mem dest2 hmem1
    · rw [hocc2]
      exact List.mem_cons_self dest2 occ1

/-- Witness for C5: moving two files named photo.jpg into an empty
directory leaves photo.jpg and photo_1.jpg, both present. -/
theorem C5_witness :
    ("out/photo.jpg" : String) ≠ "out/photo_1.jpg" ∧
    ("out/photo.jpg" : String) ∈
      ["out/photo_1.jpg", "out/photo.jpg"] ∧
    ("out/photo_1.jpg" : String) ∈
      ["out/photo_1.jpg", "out/photo.jpg"] :=
  (C5_conflict_safe_move [] "out" "photo" ".jpg").2.2 3 3
    "out/photo.jpg" ["out/photo.jpg"] "out/photo_1.jpg"
    ["out/photo_1.jpg", "out/photo.jpg"] (by decide) (by decide)
